import Mathlib

/-!
Shallow embedding of the portfolio ledger and order-execution engine of the
Stock Market Simulator (files `portfolio_db.py` and `trading_engine.py`).

Modelling conventions:
* Money amounts, prices and share quantities are `ℚ` (the database stores
  SQLite REALs; the spec asks for exact decimal arithmetic, and the claims
  are stated over exact arithmetic).
* The SQLite tables are modelled as in-memory data: the single `Account`
  row becomes the field `cash_balance`, the `Holdings` table a list of
  `Holding` rows keyed by symbol, the `Transactions` table an append-only
  list (insertion order; `get_transactions` reads it most-recent-first).
* Timestamps are irrelevant to every claim and are omitted from the
  transaction record.
* Numeric string formatting (Python's `f"{x:,.2f}"`) is abstracted by
  `money`/`qty_str`; the message claims only concern which data a message
  interpolates, never the digit rendering.
* `get_live_quote` is an external network call; `place_order` receives its
  result as an explicit `Option ℚ` (the price of the quote, `none` when
  the provider fails).
-/

/-- A row of the `Holdings` table: `symbol TEXT PRIMARY KEY, quantity REAL,
average_price REAL`. -/
structure Holding where
  symbol : String
  quantity : ℚ
  average_price : ℚ
  deriving DecidableEq, Repr

/-- A row of the `Transactions` table (timestamp omitted): `symbol`, `type`
(DEPOSIT, BUY or SELL), `quantity`, `price`. -/
structure Transaction where
  symbol : String
  type : String
  quantity : ℚ
  price : ℚ
  deriving DecidableEq, Repr

/-- The whole durable state: the singleton `Account` row, the `Holdings`
table and the append-only `Transactions` table. -/
structure Ledger where
  cash_balance : ℚ
  holdings : List Holding
  transactions : List Transaction
  deriving DecidableEq, Repr

/-- `INITIAL_CASH = 100000.00` in `portfolio_db.py`. -/
def INITIAL_CASH : ℚ := 100000

/-- The state `initialize_database` creates on a fresh database: one
`Account` row with `INITIAL_CASH`, empty `Holdings` and `Transactions`. -/
def initialize_database : Ledger :=
  { cash_balance := INITIAL_CASH, holdings := [], transactions := [] }

/-- `SELECT quantity, average_price FROM Holdings WHERE symbol = ?` —
the row lookup both `update_holding` and the Ledger-Store interface's
`read_holding` perform (symbol is the primary key, so the first match). -/
def read_holding (L : Ledger) (symbol : String) : Option (ℚ × ℚ) :=
  (L.holdings.find? fun h => h.symbol == symbol).map
    fun h => (h.quantity, h.average_price)

/-- `get_cash_balance` of `portfolio_db.py`. -/
def get_cash_balance (L : Ledger) : ℚ := L.cash_balance

/-- `update_cash_balance` of `portfolio_db.py`:
`UPDATE Account SET cash_balance = cash_balance + ?`. -/
def update_cash_balance (L : Ledger) (amount : ℚ) : Ledger :=
  { L with cash_balance := L.cash_balance + amount }

/-- `log_transaction` of `portfolio_db.py`: inserts one row into
`Transactions` (timestamp omitted). -/
def log_transaction (L : Ledger) (symbol ty : String) (quantity price : ℚ) :
    Ledger :=
  { L with transactions := L.transactions ++ [⟨symbol, ty, quantity, price⟩] }

/-- Placeholder for Python's `f"{x:,.2f}"` money formatting: the exact digit
rendering is irrelevant to every claim. -/
def money (x : ℚ) : String := toString x

/-- Placeholder for Python's rendering of a quantity inside a message. -/
def qty_str (x : ℚ) : String := toString x

/-- `add_virtual_cash` of `portfolio_db.py`. Returns the `(bool, message)`
pair together with the resulting state. -/
def add_virtual_cash (L : Ledger) (amount : ℚ) : Bool × String × Ledger :=
  if amount ≤ 0 then
    (false, "Amount must be positive.", L)
  else
    (true, "Successfully added $" ++ money amount ++ ".",
      log_transaction (update_cash_balance L amount) "CASH" "DEPOSIT" 1 amount)

/-- `update_holding` of `portfolio_db.py`. A raised `ValueError` becomes
`Except.error` carrying the exception message; on the error paths the
connection is closed before any write, so the state is unchanged. -/
def update_holding (L : Ledger) (symbol : String)
    (quantity_change price : ℚ) : Except String Ledger :=
  match L.holdings.find? fun h => h.symbol == symbol with
  | some h =>
    let current_qty := h.quantity
    let current_avg_price := h.average_price
    let new_qty := current_qty + quantity_change
    if new_qty < 0 then
      .error ("Insufficient quantity to sell. You only have " ++
        qty_str current_qty ++ ".")
    else
      let new_avg_price :=
        if quantity_change > 0 then
          (current_qty * current_avg_price + quantity_change * price) / new_qty
        else if new_qty = 0 then 0
        else current_avg_price
      if new_qty > 0 then
        .ok { L with holdings := L.holdings.map fun g =>
                if g.symbol == symbol then ⟨g.symbol, new_qty, new_avg_price⟩
                else g }
      else
        .ok { L with holdings := L.holdings.filter fun g =>
                !(g.symbol == symbol) }
  | none =>
    if quantity_change > 0 then
      .ok { L with holdings :=
              L.holdings ++ [⟨symbol, quantity_change, price⟩] }
    else
      .error ("Cannot sell " ++ symbol ++ ". You do not own this stock.")

/-- `place_order` of `trading_engine.py`. `quote` is the price returned by
`get_live_quote symbol` (`none` when the provider fails). Returns the
`(success, message)` pair together with the resulting state. -/
def place_order (L : Ledger) (symbol : String) (quantity : ℚ)
    (order_ty : String) (quote : Option ℚ) : Bool × String × Ledger :=
  if ¬ (order_ty = "BUY" ∨ order_ty = "SELL") then
    (false, "Invalid order type.", L)
  else if quantity ≤ 0 then
    (false, "Quantity must be positive.", L)
  else
    match quote with
    | none =>
      (false, "Could not get live price for " ++ symbol ++
        ". Check symbol or API key.", L)
    | some price =>
      let total_cost := price * quantity
      let current_cash := get_cash_balance L
      if order_ty = "BUY" then
        if total_cost > current_cash then
          (false, "Insufficient cash. Need $" ++ money total_cost ++
            ", have $" ++ money current_cash ++ ".", L)
        else
          match update_holding L symbol quantity price with
          | .ok L1 =>
            let L2 := update_cash_balance L1 (-total_cost)
            let L3 := log_transaction L2 symbol "BUY" quantity price
            (true, "Successfully BOUGHT " ++ qty_str quantity ++ " of " ++
              symbol ++ " at $" ++ money price ++ ".", L3)
          | .error e => (false, "Error during BUY: " ++ e, L)
      else
        match update_holding L symbol (-quantity) price with
        | .ok L1 =>
          let L2 := update_cash_balance L1 total_cost
          let L3 := log_transaction L2 symbol "SELL" quantity price
          (true, "Successfully SOLD " ++ qty_str quantity ++ " of " ++
            symbol ++ " at $" ++ money price ++ ".", L3)
        | .error e => (false, e, L)

theorem find?_set_of_mem (l : List Holding) (s : String) (q a : ℚ)
    (h : (l.find? fun g => g.symbol == s).isSome = true) :
    ((l.map fun g =>
        if g.symbol == s then (⟨g.symbol, q, a⟩ : Holding) else g).find?
      fun g => g.symbol == s) = some ⟨s, q, a⟩ := by
  induction l with
  | nil => simp at h
  | cons g t ih =>
    by_cases hg : (g.symbol == s) = true
    · have hs : g.symbol = s := by simpa using hg
      rw [List.map_cons, if_pos hg, List.find?_cons_of_pos _ (by simpa using hg), hs]
    · rw [List.map_cons, if_neg hg, List.find?_cons_of_neg _ (by simpa using hg)]
      rw [List.find?_cons_of_neg _ (by simpa using hg)] at h
      exact ih h

theorem find?_filter_out (l : List Holding) (s : String) :
    ((l.filter fun g => !(g.symbol == s)).find? fun g => g.symbol == s) = none := by
  apply List.find?_eq_none.2
  intro x hx
  have hx2 := (List.mem_filter.1 hx).2
  simp only [Bool.not_eq_true'] at hx2
  simp [hx2]

theorem find?_append_singleton (l : List Holding) (x : Holding)
    (p : Holding → Bool) (h : l.find? p = none) (hx : p x = true) :
    (l ++ [x]).find? p = some x := by
  rw [List.find?_append, h, List.find?_cons_of_pos _ hx]
  rfl

theorem read_holding_none_iff (L : Ledger) (s : String) :
    read_holding L s = none ↔ (L.holdings.find? fun h => h.symbol == s) = none := by
  simp [read_holding]

theorem read_holding_some_elim (L : Ledger) (s : String) (q a : ℚ)
    (h : read_holding L s = some (q, a)) :
    ∃ g, (L.holdings.find? fun h => h.symbol == s) = some g ∧
      g.symbol = s ∧ g.quantity = q ∧ g.average_price = a := by
  unfold read_holding at h
  cases hf : L.holdings.find? fun h => h.symbol == s with
  | none => rw [hf] at h; cases h
  | some g =>
    rw [hf] at h
    refine ⟨g, rfl, ?_, ?_, ?_⟩
    · have := List.find?_some hf
      simpa using this
    · cases h; rfl
    · cases h; rfl

theorem update_holding_buy (L : Ledger) (s : String) (q a Δ p : ℚ)
    (h : read_holding L s = some (q, a)) (hq : 0 ≤ q) (hΔ : 0 < Δ) :
    ∃ L', update_holding L s Δ p = .ok L' ∧
      L'.cash_balance = L.cash_balance ∧
      L'.transactions = L.transactions ∧
      read_holding L' s = some (q + Δ, (q * a + Δ * p) / (q + Δ)) := by
  obtain ⟨g, hg, hgs, hgq, hga⟩ := read_holding_some_elim L s q a h
  have h1 : ¬ (q + Δ < 0) := by linarith
  have h2 : (0:ℚ) < q + Δ := by linarith
  refine ⟨{ L with holdings := L.holdings.map fun g =>
      if g.symbol == s then ⟨g.symbol, q + Δ, (q * a + Δ * p) / (q + Δ)⟩
      else g }, ?_, rfl, rfl, ?_⟩
  · simp only [update_holding, hg, hgq, hga]
    rw [if_neg h1, if_pos hΔ, if_pos h2]
  · unfold read_holding
    rw [show ({ L with holdings := L.holdings.map fun g =>
        if g.symbol == s then
          (⟨g.symbol, q + Δ, (q * a + Δ * p) / (q + Δ)⟩ : Holding)
        else g } : Ledger).holdings = L.holdings.map fun g =>
        if g.symbol == s then
          (⟨g.symbol, q + Δ, (q * a + Δ * p) / (q + Δ)⟩ : Holding)
        else g from rfl]
    rw [find?_set_of_mem _ s _ _ (by rw [hg]; rfl)]
    rfl

theorem update_holding_sell_partial (L : Ledger) (s : String) (q a Δ p : ℚ)
    (h : read_holding L s = some (q, a)) (hΔ : Δ ≤ 0) (hpos : 0 < q + Δ) :
    ∃ L', update_holding L s Δ p = .ok L' ∧
      L'.cash_balance = L.cash_balance ∧
      L'.transactions = L.transactions ∧
      read_holding L' s = some (q + Δ, a) := by
  obtain ⟨g, hg, hgs, hgq, hga⟩ := read_holding_some_elim L s q a h
  have h1 : ¬ (q + Δ < 0) := by linarith
  have h2 : ¬ (Δ > 0) := by linarith
  have h3 : ¬ (q + Δ = 0) := by linarith
  refine ⟨{ L with holdings := L.holdings.map fun g =>
      if g.symbol == s then ⟨g.symbol, q + Δ, a⟩ else g }, ?_, rfl, rfl, ?_⟩
  · simp only [update_holding, hg, hgq, hga]
    rw [if_neg h1, if_neg h2, if_neg h3, if_pos hpos]
  · unfold read_holding
    rw [show ({ L with holdings := L.holdings.map fun g =>
        if g.symbol == s then (⟨g.symbol, q + Δ, a⟩ : Holding)
        else g } : Ledger).holdings = L.holdings.map fun g =>
        if g.symbol == s then (⟨g.symbol, q + Δ, a⟩ : Holding)
        else g from rfl]
    rw [find?_set_of_mem _ s _ _ (by rw [hg]; rfl)]
    rfl

theorem update_holding_sell_all (L : Ledger) (s : String) (q a Δ p : ℚ)
    (h : read_holding L s = some (q, a)) (hz : q + Δ = 0) :
    ∃ L', update_holding L s Δ p = .ok L' ∧
      L'.cash_balance = L.cash_balance ∧
      L'.transactions = L.transactions ∧
      L'.holdings = L.holdings.filter (fun g => !(g.symbol == s)) ∧
      read_holding L' s = none := by
  obtain ⟨g, hg, hgs, hgq, hga⟩ := read_holding_some_elim L s q a h
  have h1 : ¬ (q + Δ < 0) := by rw [hz]; exact lt_irrefl 0
  have h2 : ¬ (q + Δ > 0) := by rw [hz]; exact lt_irrefl 0
  refine ⟨{ L with holdings := L.holdings.filter fun g => !(g.symbol == s) },
    ?_, rfl, rfl, rfl, ?_⟩
  · simp only [update_holding, hg, hgq]
    rw [if_neg h1, if_neg h2]
  · unfold read_holding
    rw [show ({ L with holdings := L.holdings.filter fun g =>
        !(g.symbol == s) } : Ledger).holdings =
        L.holdings.filter fun g => !(g.symbol == s) from rfl]
    rw [find?_filter_out]
    rfl

theorem update_holding_insufficient (L : Ledger) (s : String) (q a Δ p : ℚ)
    (h : read_holding L s = some (q, a)) (hneg : q + Δ < 0) :
    update_holding L s Δ p =
      .error ("Insufficient quantity to sell. You only have " ++
        qty_str q ++ ".") := by
  obtain ⟨g, hg, hgs, hgq, hga⟩ := read_holding_some_elim L s q a h
  simp only [update_holding, hg, hgq]
  rw [if_pos hneg]

theorem update_holding_fresh_buy (L : Ledger) (s : String) (Δ p : ℚ)
    (h : read_holding L s = none) (hΔ : 0 < Δ) :
    ∃ L', update_holding L s Δ p = .ok L' ∧
      L'.cash_balance = L.cash_balance ∧
      L'.transactions = L.transactions ∧
      L'.holdings = L.holdings ++ [⟨s, Δ, p⟩] ∧
      read_holding L' s = some (Δ, p) := by
  have hf := (read_holding_none_iff L s).1 h
  refine ⟨{ L with holdings := L.holdings ++ [⟨s, Δ, p⟩] }, ?_, rfl, rfl, rfl, ?_⟩
  · simp only [update_holding, hf]
    rw [if_pos hΔ]
  · unfold read_holding
    rw [show ({ L with holdings := L.holdings ++ [⟨s, Δ, p⟩] } : Ledger).holdings =
        L.holdings ++ [⟨s, Δ, p⟩] from rfl]
    rw [find?_append_singleton _ _ _ hf (by simp)]
    rfl

theorem update_holding_fresh_sell (L : Ledger) (s : String) (Δ p : ℚ)
    (h : read_holding L s = none) (hΔ : Δ ≤ 0) :
    update_holding L s Δ p =
      .error ("Cannot sell " ++ s ++ ". You do not own this stock.") := by
  have hf := (read_holding_none_iff L s).1 h
  simp only [update_holding, hf]
  rw [if_neg (by linarith : ¬ (Δ > 0))]

theorem update_holding_ok_frame (L L' : Ledger) (s : String) (Δ p : ℚ)
    (h : update_holding L s Δ p = .ok L') :
    L'.cash_balance = L.cash_balance ∧ L'.transactions = L.transactions := by
  cases hf : L.holdings.find? fun g => g.symbol == s with
  | some g0 =>
    simp only [update_holding, hf] at h
    by_cases h1 : g0.quantity + Δ < 0
    · rw [if_pos h1] at h; cases h
    · rw [if_neg h1] at h
      by_cases h2 : g0.quantity + Δ > 0
      · rw [if_pos h2] at h; cases h; exact ⟨rfl, rfl⟩
      · rw [if_neg h2] at h; cases h; exact ⟨rfl, rfl⟩
  | none =>
    simp only [update_holding, hf] at h
    by_cases h1 : Δ > 0
    · rw [if_pos h1] at h; cases h; exact ⟨rfl, rfl⟩
    · rw [if_neg h1] at h; cases h

theorem update_holding_ok_pos (L L' : Ledger) (s : String) (Δ p : ℚ)
    (h : update_holding L s Δ p = .ok L')
    (hL : ∀ g ∈ L.holdings, 0 < g.quantity) :
    ∀ g ∈ L'.holdings, 0 < g.quantity := by
  cases hf : L.holdings.find? fun g => g.symbol == s with
  | some g0 =>
    simp only [update_holding, hf] at h
    by_cases h1 : g0.quantity + Δ < 0
    · rw [if_pos h1] at h; cases h
    · rw [if_neg h1] at h
      by_cases h2 : g0.quantity + Δ > 0
      · rw [if_pos h2] at h
        cases h
        intro g hg
        simp only [List.mem_map] at hg
        obtain ⟨g1, hg1, hfg⟩ := hg
        by_cases hc : (g1.symbol == s) = true
        · rw [if_pos hc] at hfg
          rw [← hfg]
          exact h2
        · rw [if_neg hc] at hfg
          rw [← hfg]
          exact hL g1 hg1
      · rw [if_neg h2] at h
        cases h
        intro g hg
        exact hL g (List.mem_of_mem_filter hg)
  | none =>
    simp only [update_holding, hf] at h
    by_cases h1 : Δ > 0
    · rw [if_pos h1] at h
      cases h
      intro g hg
      rcases List.mem_append.1 hg with hmem | hmem
      · exact hL g hmem
      · rcases List.mem_singleton.1 hmem with rfl
        exact h1
    · rw [if_neg h1] at h; cases h

theorem place_order_cases (L : Ledger) (s : String) (q : ℚ) (t : String)
    (quote : Option ℚ) :
    ((place_order L s q t quote).1 = false ∧ (place_order L s q t quote).2.2 = L) ∨
    ((place_order L s q t quote).1 = true ∧ 0 < q ∧
      ∃ p L1, quote = some p ∧
        ((t = "BUY" ∧ p * q ≤ L.cash_balance ∧ update_holding L s q p = .ok L1 ∧
            (place_order L s q t quote).2.2 =
              log_transaction (update_cash_balance L1 (-(p * q))) s "BUY" q p) ∨
         (t = "SELL" ∧ update_holding L s (-q) p = .ok L1 ∧
            (place_order L s q t quote).2.2 =
              log_transaction (update_cash_balance L1 (p * q)) s "SELL" q p))) := by
  by_cases ht : ¬ (t = "BUY" ∨ t = "SELL")
  · left
    simp only [place_order, if_pos ht]
    exact ⟨by trivial, by trivial⟩
  · by_cases hq : q ≤ 0
    · left
      simp only [place_order, if_neg ht, if_pos hq]
      exact ⟨by trivial, by trivial⟩
    · cases quote with
      | none =>
        left
        simp only [place_order, if_neg ht, if_neg hq]
        exact ⟨by trivial, by trivial⟩
      | some p =>
        by_cases hb : t = "BUY"
        · by_cases hc : p * q > L.cash_balance
          · left
            simp only [place_order, if_neg ht, if_neg hq, get_cash_balance,
              if_pos hb, if_pos hc]
            exact ⟨by trivial, by trivial⟩
          · cases hu : update_holding L s q p with
            | ok L1 =>
              right
              simp only [place_order, if_neg ht, if_neg hq, get_cash_balance,
                if_pos hb, if_neg hc, hu]
              exact ⟨by trivial, lt_of_not_le hq, p, L1, rfl,
                Or.inl ⟨hb, le_of_not_lt hc, hu, by trivial⟩⟩
            | error e =>
              left
              simp only [place_order, if_neg ht, if_neg hq, get_cash_balance,
                if_pos hb, if_neg hc, hu]
              exact ⟨by trivial, by trivial⟩
        · have hs : t = "SELL" := (not_not.1 ht).resolve_left hb
          cases hu : update_holding L s (-q) p with
          | ok L1 =>
            right
            simp only [place_order, if_neg ht, if_neg hq, get_cash_balance,
              if_neg hb, hu]
            exact ⟨by trivial, lt_of_not_le hq, p, L1, rfl,
              Or.inr ⟨hs, hu, by trivial⟩⟩
          | error e =>
            left
            simp only [place_order, if_neg ht, if_neg hq, get_cash_balance,
              if_neg hb, hu]
            exact ⟨by trivial, by trivial⟩

theorem place_order_fail_state (L : Ledger) (s : String) (q : ℚ) (t : String)
    (quote : Option ℚ) (h : (place_order L s q t quote).1 = false) :
    (place_order L s q t quote).2.2 = L := by
  rcases place_order_cases L s q t quote with ⟨_, hst⟩ | ⟨htrue, _⟩
  · exact hst
  · rw [htrue] at h; cases h

theorem place_order_invalid_type (L : Ledger) (s : String) (q : ℚ) (t : String)
    (quote : Option ℚ) (ht : ¬ (t = "BUY" ∨ t = "SELL")) :
    place_order L s q t quote = (false, "Invalid order type.", L) := by
  simp only [place_order, if_pos ht]

theorem place_order_invalid_qty (L : Ledger) (s : String) (q : ℚ) (t : String)
    (quote : Option ℚ) (ht : t = "BUY" ∨ t = "SELL") (hq : q ≤ 0) :
    place_order L s q t quote = (false, "Quantity must be positive.", L) := by
  simp only [place_order, if_neg (not_not.2 ht), if_pos hq]

theorem place_order_no_quote (L : Ledger) (s : String) (q : ℚ) (t : String)
    (ht : t = "BUY" ∨ t = "SELL") (hq : ¬ q ≤ 0) :
    place_order L s q t none =
      (false, "Could not get live price for " ++ s ++
        ". Check symbol or API key.", L) := by
  simp only [place_order, if_neg (not_not.2 ht), if_neg hq]

theorem place_order_buy_insufficient_cash (L : Ledger) (s : String) (q p : ℚ)
    (hq : 0 < q) (hc : p * q > L.cash_balance) :
    place_order L s q "BUY" (some p) =
      (false, "Insufficient cash. Need $" ++ money (p * q) ++
        ", have $" ++ money L.cash_balance ++ ".", L) := by
  simp only [place_order, if_neg (not_not.2 (Or.inl rfl)),
    if_neg (not_le.2 hq), get_cash_balance, if_pos (by rfl : "BUY" = "BUY"),
    if_pos hc]
  simp

theorem place_order_buy_ok (L L1 : Ledger) (s : String) (q p : ℚ)
    (hq : 0 < q) (hc : ¬ p * q > L.cash_balance)
    (hu : update_holding L s q p = .ok L1) :
    place_order L s q "BUY" (some p) =
      (true, "Successfully BOUGHT " ++ qty_str q ++ " of " ++ s ++
        " at $" ++ money p ++ ".",
       log_transaction (update_cash_balance L1 (-(p * q))) s "BUY" q p) := by
  simp only [place_order, if_neg (not_not.2 (Or.inl rfl)),
    if_neg (not_le.2 hq), get_cash_balance, if_pos (by rfl : "BUY" = "BUY"),
    if_neg hc, hu]
  simp

theorem place_order_buy_err (L : Ledger) (s : String) (q p : ℚ) (e : String)
    (hq : 0 < q) (hc : ¬ p * q > L.cash_balance)
    (hu : update_holding L s q p = .error e) :
    place_order L s q "BUY" (some p) =
      (false, "Error during BUY: " ++ e, L) := by
  simp only [place_order, if_neg (not_not.2 (Or.inl rfl)),
    if_neg (not_le.2 hq), get_cash_balance, if_pos (by rfl : "BUY" = "BUY"),
    if_neg hc, hu]
  simp

theorem place_order_sell_ok (L L1 : Ledger) (s : String) (q p : ℚ)
    (hq : 0 < q) (hu : update_holding L s (-q) p = .ok L1) :
    place_order L s q "SELL" (some p) =
      (true, "Successfully SOLD " ++ qty_str q ++ " of " ++ s ++
        " at $" ++ money p ++ ".",
       log_transaction (update_cash_balance L1 (p * q)) s "SELL" q p) := by
  simp only [place_order, if_neg (not_not.2 (Or.inr rfl)),
    if_neg (not_le.2 hq), get_cash_balance,
    if_neg (by decide : ¬ ("SELL" = "BUY")), hu]
  simp

theorem place_order_sell_err (L : Ledger) (s : String) (q p : ℚ) (e : String)
    (hq : 0 < q) (hu : update_holding L s (-q) p = .error e) :
    place_order L s q "SELL" (some p) = (false, e, L) := by
  simp only [place_order, if_neg (not_not.2 (Or.inr rfl)),
    if_neg (not_le.2 hq), get_cash_balance,
    if_neg (by decide : ¬ ("SELL" = "BUY")), hu]
  simp

/-- A sequence of BUY executions on one symbol, each applied through
`update_holding` exactly as `place_order` applies a single BUY (quantity and
execution price per element). -/
def apply_buys (s : String) : Ledger → List (ℚ × ℚ) → Except String Ledger
  | L, [] => .ok L
  | L, (q, p) :: rest =>
    match update_holding L s q p with
    | .ok L1 => apply_buys s L1 rest
    | .error e => .error e

/-- `q_1 + ... + q_n` over a buy sequence. -/
def total_quantity (buys : List (ℚ × ℚ)) : ℚ := (buys.map Prod.fst).sum

/-- `q_1*p_1 + ... + q_n*p_n` over a buy sequence. -/
def total_buy_cost (buys : List (ℚ × ℚ)) : ℚ :=
  (buys.map fun qp => qp.1 * qp.2).sum

theorem apply_buys_weighted (s : String) (buys : List (ℚ × ℚ)) :
    ∀ (L : Ledger) (q a : ℚ), read_holding L s = some (q, a) → 0 < q →
      (∀ qp ∈ buys, 0 < qp.1) →
      ∃ L' A, apply_buys s L buys = .ok L' ∧
        read_holding L' s = some (q + total_quantity buys, A) ∧
        A * (q + total_quantity buys) = q * a + total_buy_cost buys := by
  induction buys with
  | nil =>
    intro L q a h hq _
    refine ⟨L, a, rfl, ?_, ?_⟩
    · simpa [total_quantity] using h
    · simp [total_quantity, total_buy_cost, mul_comm]
  | cons qp rest ih =>
    intro L q a h hq hpos
    obtain ⟨Δ, p⟩ := qp
    have hΔ : 0 < Δ := by simpa using hpos (Δ, p) (List.mem_cons_self _ _)
    obtain ⟨L1, hu, _, _, hr1⟩ :=
      update_holding_buy L s q a Δ p h (le_of_lt hq) hΔ
    have hq1 : (0:ℚ) < q + Δ := by linarith
    obtain ⟨L', A, ha, hr, hw⟩ :=
      ih L1 (q + Δ) ((q * a + Δ * p) / (q + Δ)) hr1 hq1
        (fun x hx => hpos x (List.mem_cons_of_mem _ hx))
    have hsum : q + Δ + total_quantity rest =
        q + total_quantity ((Δ, p) :: rest) := by
      simp [total_quantity]; ring
    refine ⟨L', A, ?_, ?_, ?_⟩
    · simp only [apply_buys, hu]
      exact ha
    · rw [← hsum]
      exact hr
    · have h2 : (q + Δ) * ((q * a + Δ * p) / (q + Δ)) = q * a + Δ * p := by
        rw [mul_comm]
        exact div_mul_cancel₀ _ (ne_of_gt hq1)
      rw [← hsum, hw, h2]
      simp [total_buy_cost]
      ring

/-- `add_virtual_cash` never touches the `Holdings` table. -/
theorem add_virtual_cash_holdings (L : Ledger) (a : ℚ) :
    (add_virtual_cash L a).2.2.holdings = L.holdings := by
  by_cases h : a ≤ 0 <;>
    simp [add_virtual_cash, h, log_transaction, update_cash_balance]

/-- Closure of the durable states reachable from a fresh database through
the state-mutating operations the application exposes: cash deposits
(`add_virtual_cash`) and orders (`place_order`, with an arbitrary
quote-provider response). -/
inductive Reachable : Ledger → Prop
  | init : Reachable initialize_database
  | deposit (L : Ledger) (amount : ℚ) : Reachable L →
      Reachable (add_virtual_cash L amount).2.2
  | order (L : Ledger) (s : String) (q : ℚ) (t : String) (quote : Option ℚ) :
      Reachable L → Reachable (place_order L s q t quote).2.2

/-- Same closure, but the Quote Provider is constrained to return
nonnegative prices (market prices; the spec's data model types prices as
decimal currency amounts). -/
inductive ReachableNN : Ledger → Prop
  | init : ReachableNN initialize_database
  | deposit (L : Ledger) (amount : ℚ) : ReachableNN L →
      ReachableNN (add_virtual_cash L amount).2.2
  | order (L : Ledger) (s : String) (q : ℚ) (t : String) (quote : Option ℚ) :
      (∀ p, quote = some p → 0 ≤ p) → ReachableNN L →
      ReachableNN (place_order L s q t quote).2.2

@[simp] theorem log_transaction_holdings (L : Ledger) (s ty : String)
    (q p : ℚ) : (log_transaction L s ty q p).holdings = L.holdings := rfl

@[simp] theorem log_transaction_cash (L : Ledger) (s ty : String) (q p : ℚ) :
    (log_transaction L s ty q p).cash_balance = L.cash_balance := rfl

@[simp] theorem log_transaction_transactions (L : Ledger) (s ty : String)
    (q p : ℚ) : (log_transaction L s ty q p).transactions =
      L.transactions ++ [⟨s, ty, q, p⟩] := rfl

@[simp] theorem update_cash_balance_holdings (L : Ledger) (a : ℚ) :
    (update_cash_balance L a).holdings = L.holdings := rfl

@[simp] theorem update_cash_balance_cash (L : Ledger) (a : ℚ) :
    (update_cash_balance L a).cash_balance = L.cash_balance + a := rfl

@[simp] theorem update_cash_balance_transactions (L : Ledger) (a : ℚ) :
    (update_cash_balance L a).transactions = L.transactions := rfl

/-- A concrete one-holding state used to instantiate universally quantified
theorems: holds `q` units of `"X"` at average price `a`, with zero cash and
an empty transaction log. -/
def oneHoldingLedger (q a : ℚ) : Ledger :=
  { cash_balance := 0, holdings := [⟨"X", q, a⟩], transactions := [] }

/-- C1: for every sequence of successful BUYs on a symbol with no prior
holding, the resulting holding's `average_price` times the total quantity
equals `q_1*p_1 + ... + q_n*p_n` exactly, and each individual buy on an
existing holding updates the average as
`new_avg = (current_qty*current_avg + quantity_delta*trade_price)/new_qty`. -/
theorem C1_buy_average_price :
    (∀ (L : Ledger) (s : String) (q1 p1 : ℚ) (rest : List (ℚ × ℚ)),
      read_holding L s = none →
      (∀ qp ∈ (q1, p1) :: rest, 0 < qp.1) →
      ∃ L' A, apply_buys s L ((q1, p1) :: rest) = .ok L' ∧
        read_holding L' s = some (total_quantity ((q1, p1) :: rest), A) ∧
        A * total_quantity ((q1, p1) :: rest) =
          total_buy_cost ((q1, p1) :: rest)) ∧
    (∀ (L : Ledger) (s : String) (q a Δ p : ℚ),
      read_holding L s = some (q, a) → 0 ≤ q → 0 < Δ →
      ∃ L', update_holding L s Δ p = .ok L' ∧
        read_holding L' s = some (q + Δ, (q * a + Δ * p) / (q + Δ))) := by
  constructor
  · intro L s q1 p1 rest h hpos
    have hq1 : 0 < q1 := by simpa using hpos (q1, p1) (List.mem_cons_self _ _)
    obtain ⟨L1, hu, _, _, _, hr1⟩ := update_holding_fresh_buy L s q1 p1 h hq1
    obtain ⟨L', A, ha, hr, hw⟩ :=
      apply_buys_weighted s rest L1 q1 p1 hr1 hq1
        (fun x hx => hpos x (List.mem_cons_of_mem _ hx))
    have hq : total_quantity ((q1, p1) :: rest) = q1 + total_quantity rest := by
      simp [total_quantity]
    have hc : total_buy_cost ((q1, p1) :: rest) =
        q1 * p1 + total_buy_cost rest := by
      simp [total_buy_cost]
    refine ⟨L', A, ?_, ?_, ?_⟩
    · simp only [apply_buys, hu]
      exact ha
    · rw [hq]
      exact hr
    · rw [hq, hc]
      exact hw
  · intro L s q a Δ p h hq hΔ
    obtain ⟨L', hu, _, _, hr⟩ := update_holding_buy L s q a Δ p h hq hΔ
    exact ⟨L', hu, hr⟩

theorem C1_buy_average_price_witness :
    (∃ L' A, apply_buys "X" initialize_database [(10, 100), (10, 200)] =
        .ok L' ∧
      read_holding L' "X" = some (total_quantity [(10, 100), (10, 200)], A) ∧
      A * total_quantity [(10, 100), (10, 200)] =
        total_buy_cost [(10, 100), (10, 200)]) ∧
    (∃ L', update_holding (oneHoldingLedger 10 100) "X" 10 200 = .ok L' ∧
      read_holding L' "X" =
        some (10 + 10, (10 * 100 + 10 * 200) / (10 + 10))) :=
  ⟨C1_buy_average_price.1 initialize_database "X" 10 100 [(10, 200)] rfl
      (by norm_num [List.forall_mem_cons]),
   C1_buy_average_price.2 (oneHoldingLedger 10 100) "X" 10 100 10 200 rfl
      (by norm_num) (by norm_num)⟩

/-- C2: a SELL whose quantity exceeds the held quantity, and a SELL of a
symbol with no holding, both fail with the `InsufficientHoldingError`
message and leave the entire state (cash, holdings, transaction log)
unchanged. -/
theorem C2_sell_insufficient_holding (L : Ledger) (s : String) (q p : ℚ)
    (hq : 0 < q) :
    (read_holding L s = none →
      place_order L s q "SELL" (some p) =
        (false, "Cannot sell " ++ s ++ ". You do not own this stock.", L)) ∧
    (∀ q0 a, read_holding L s = some (q0, a) → q0 < q →
      place_order L s q "SELL" (some p) =
        (false, "Insufficient quantity to sell. You only have " ++
          qty_str q0 ++ ".", L)) := by
  constructor
  · intro h
    exact place_order_sell_err L s q p _ hq
      (update_holding_fresh_sell L s (-q) p h (by linarith))
  · intro q0 a h hlt
    exact place_order_sell_err L s q p _ hq
      (update_holding_insufficient L s q0 a (-q) p h (by linarith))

theorem C2_sell_insufficient_holding_witness :
    place_order initialize_database "X" 5 "SELL" (some 10) =
      (false, "Cannot sell " ++ "X" ++ ". You do not own this stock.",
        initialize_database) :=
  (C2_sell_insufficient_holding initialize_database "X" 5 10 (by norm_num)).1
    rfl

/-- C3: a BUY with `total_cost = price * quantity` strictly greater than the
cash balance fails with the `InsufficientFunds` message and leaves all state
unchanged; a BUY with `total_cost ≤ cash_balance` (equality allowed) passes
the funds check and (over states whose holdings have positive quantities)
succeeds. -/
theorem C3_buy_funds_check (L : Ledger) (s : String) (q p : ℚ) (hq : 0 < q) :
    (p * q > L.cash_balance →
      place_order L s q "BUY" (some p) =
        (false, "Insufficient cash. Need $" ++ money (p * q) ++
          ", have $" ++ money L.cash_balance ++ ".", L)) ∧
    (p * q ≤ L.cash_balance → (∀ g ∈ L.holdings, 0 < g.quantity) →
      (place_order L s q "BUY" (some p)).1 = true) := by
  constructor
  · exact fun hc => place_order_buy_insufficient_cash L s q p hq hc
  · intro hc hpos
    cases hf : read_holding L s with
    | none =>
      obtain ⟨L1, hu, _, _, _, _⟩ := update_holding_fresh_buy L s q p hf hq
      rw [place_order_buy_ok L L1 s q p hq (not_lt.2 hc) hu]
    | some qa =>
      obtain ⟨q0, a0⟩ := qa
      have hq0 : 0 < q0 := by
        obtain ⟨g, hg, hgs, hgq, hga⟩ := read_holding_some_elim L s q0 a0 hf
        rw [← hgq]
        exact hpos g (List.mem_of_find?_eq_some hg)
      obtain ⟨L1, hu, _, _, _⟩ :=
        update_holding_buy L s q0 a0 q p hf (le_of_lt hq0) hq
      rw [place_order_buy_ok L L1 s q p hq (not_lt.2 hc) hu]

theorem C3_buy_funds_check_witness :
    place_order initialize_database "X" 1 "BUY" (some 200000) =
      (false, "Insufficient cash. Need $" ++ money (200000 * 1) ++
        ", have $" ++ money initialize_database.cash_balance ++ ".",
        initialize_database) ∧
    (place_order initialize_database "X" 1 "BUY" (some 100000)).1 = true :=
  ⟨(C3_buy_funds_check initialize_database "X" 1 200000 (by norm_num)).1
      (by norm_num [initialize_database, INITIAL_CASH]),
   (C3_buy_funds_check initialize_database "X" 1 100000 (by norm_num)).2
      (by norm_num [initialize_database, INITIAL_CASH])
      (by intro g hg; simp [initialize_database] at hg)⟩

/-- C5: a successful BUY of quantity `q` at price `p` decreases the cash
balance by exactly `p*q`; a successful SELL increases it by exactly `p*q`. -/
theorem C5_cash_effect (L : Ledger) (s : String) (q p : ℚ) :
    ((place_order L s q "BUY" (some p)).1 = true →
      (place_order L s q "BUY" (some p)).2.2.cash_balance =
        L.cash_balance - p * q) ∧
    ((place_order L s q "SELL" (some p)).1 = true →
      (place_order L s q "SELL" (some p)).2.2.cash_balance =
        L.cash_balance + p * q) := by
  constructor
  · intro h
    rcases place_order_cases L s q "BUY" (some p) with
      ⟨hf, _⟩ | ⟨_, _, p0, L1, hp, hcase⟩
    · rw [h] at hf; cases hf
    · obtain rfl : p0 = p := (Option.some.inj hp).symm
      rcases hcase with ⟨_, _, hu, hst⟩ | ⟨hsell, _, _⟩
      · rw [hst]
        have hfr := (update_holding_ok_frame _ _ _ _ _ hu).1
        simp [hfr]
        ring
      · exact absurd hsell (by decide)
  · intro h
    rcases place_order_cases L s q "SELL" (some p) with
      ⟨hf, _⟩ | ⟨_, _, p0, L1, hp, hcase⟩
    · rw [h] at hf; cases hf
    · obtain rfl : p0 = p := (Option.some.inj hp).symm
      rcases hcase with ⟨hbuy, _, _, _⟩ | ⟨_, hu, hst⟩
      · exact absurd hbuy (by decide)
      · rw [hst]
        have hfr := (update_holding_ok_frame _ _ _ _ _ hu).1
        simp [hfr]

theorem C5_cash_effect_witness :
    (place_order initialize_database "X" 2 "BUY" (some 10)).2.2.cash_balance =
      initialize_database.cash_balance - 10 * 2 :=
  (C5_cash_effect initialize_database "X" 2 10).1
    (by norm_num [place_order, update_holding, read_holding, get_cash_balance,
      initialize_database, INITIAL_CASH, update_cash_balance, log_transaction])

/-- C6: a SELL (`quantity_delta ≤ 0`) that leaves a strictly positive
remaining quantity succeeds and never changes the `average_price` of the
remaining holding. -/
theorem C6_sell_preserves_average (L : Ledger) (s : String) (q a Δ p : ℚ)
    (h : read_holding L s = some (q, a)) (hΔ : Δ ≤ 0) (hpos : 0 < q + Δ) :
    ∃ L', update_holding L s Δ p = .ok L' ∧
      read_holding L' s = some (q + Δ, a) := by
  obtain ⟨L', hu, _, _, hr⟩ := update_holding_sell_partial L s q a Δ p h hΔ hpos
  exact ⟨L', hu, hr⟩

theorem C6_sell_preserves_average_witness :
    ∃ L', update_holding (oneHoldingLedger 10 100) "X" (-4) 50 = .ok L' ∧
      read_holding L' "X" = some (10 + -4, 100) :=
  C6_sell_preserves_average (oneHoldingLedger 10 100) "X" 10 100 (-4) 50 rfl
    (by norm_num) (by norm_num)

/-- C10: `add_virtual_cash` with `amount ≤ 0` fails and changes nothing;
with `amount > 0` it succeeds, increases the cash balance by exactly
`amount`, and appends exactly one `("CASH", "DEPOSIT", 1, amount)`
transaction, leaving holdings untouched. -/
theorem C10_add_virtual_cash_spec (L : Ledger) (amount : ℚ) :
    (amount ≤ 0 →
      add_virtual_cash L amount = (false, "Amount must be positive.", L)) ∧
    (0 < amount →
      (add_virtual_cash L amount).1 = true ∧
      (add_virtual_cash L amount).2.2.cash_balance =
        L.cash_balance + amount ∧
      (add_virtual_cash L amount).2.2.transactions =
        L.transactions ++ [⟨"CASH", "DEPOSIT", 1, amount⟩] ∧
      (add_virtual_cash L amount).2.2.holdings = L.holdings) := by
  constructor
  · intro h
    simp [add_virtual_cash, h]
  · intro h
    have h' : ¬ amount ≤ 0 := not_le.2 h
    simp [add_virtual_cash, h']

theorem C10_add_virtual_cash_spec_witness :
    add_virtual_cash initialize_database (-5) =
      (false, "Amount must be positive.", initialize_database) ∧
    ((add_virtual_cash initialize_database 250).1 = true ∧
      (add_virtual_cash initialize_database 250).2.2.cash_balance =
        initialize_database.cash_balance + 250 ∧
      (add_virtual_cash initialize_database 250).2.2.transactions =
        initialize_database.transactions ++ [⟨"CASH", "DEPOSIT", 1, 250⟩] ∧
      (add_virtual_cash initialize_database 250).2.2.holdings =
        initialize_database.holdings) :=
  ⟨(C10_add_virtual_cash_spec initialize_database (-5)).1 (by norm_num),
   (C10_add_virtual_cash_spec initialize_database 250).2 (by norm_num)⟩

/-- C4: in every reachable state every stored holding row has strictly
positive quantity (so a row exists only for positively held symbols, and no
operation stores a zero- or negative-quantity row), and a SELL of the whole
held quantity deletes the row: a subsequent read returns `none`. -/
theorem C4_holding_iff_positive :
    (∀ L, Reachable L → ∀ g ∈ L.holdings, 0 < g.quantity) ∧
    (∀ (L : Ledger) (s : String) (q a p : ℚ),
      read_holding L s = some (q, a) →
      ∃ L', update_holding L s (-q) p = .ok L' ∧
        read_holding L' s = none) := by
  constructor
  · intro L hL
    induction hL with
    | init =>
      intro g hg
      simp [initialize_database] at hg
    | deposit L a _ ih =>
      intro g hg
      rw [add_virtual_cash_holdings] at hg
      exact ih g hg
    | order L s q t quote _ ih =>
      rcases place_order_cases L s q t quote with
        ⟨_, hst⟩ | ⟨_, _, p, L1, _, hcase⟩
      · rw [hst]; exact ih
      · rcases hcase with ⟨_, _, hu, hst⟩ | ⟨_, hu, hst⟩ <;>
        · rw [hst]
          intro g hg
          simp only [log_transaction_holdings, update_cash_balance_holdings]
            at hg
          exact update_holding_ok_pos _ _ _ _ _ hu ih g hg
  · intro L s q a p h
    obtain ⟨L', hu, _, _, _, hr⟩ :=
      update_holding_sell_all L s q a (-q) p h (by ring)
    exact ⟨L', hu, hr⟩

theorem C4_holding_iff_positive_witness :
    (∀ g ∈ (place_order initialize_database "X" 10 "BUY"
        (some 100)).2.2.holdings, 0 < g.quantity) ∧
    (∃ L', update_holding (oneHoldingLedger 10 100) "X" (-10) 50 = .ok L' ∧
      read_holding L' "X" = none) :=
  ⟨C4_holding_iff_positive.1 _
      (Reachable.order _ "X" 10 "BUY" (some 100) Reachable.init),
   C4_holding_iff_positive.2 (oneHoldingLedger 10 100) "X" 10 100 50 rfl⟩

/-- C7 as literally stated fails: the Execution Engine never validates the
sign of the quote price, so a SELL executed at a negative price (an input
the code accepts) drives the cash balance below zero. Concretely: BUY 1 "X"
at 100 (cash 99900), then SELL 1 "X" at -200000; both orders succeed and the
final balance is -100100. -/
theorem C7_counterexample :
    Reachable (place_order (place_order initialize_database "X" 1 "BUY"
        (some 100)).2.2 "X" 1 "SELL" (some (-200000))).2.2 ∧
    (place_order (place_order initialize_database "X" 1 "BUY"
        (some 100)).2.2 "X" 1 "SELL" (some (-200000))).1 = true ∧
    (place_order (place_order initialize_database "X" 1 "BUY"
        (some 100)).2.2 "X" 1 "SELL" (some (-200000))).2.2.cash_balance
      < 0 := by
  refine ⟨Reachable.order _ _ _ _ _
      (Reachable.order _ _ _ _ _ Reachable.init), ?_, ?_⟩ <;>
  · norm_num [place_order, update_holding, read_holding, get_cash_balance,
      initialize_database, INITIAL_CASH, update_cash_balance, log_transaction]
    rw [if_neg (by decide : ¬ ("SELL" = "BUY"))]
    try norm_num

/-- C7 (amended): provided every quote price the provider returns is
nonnegative, every state reachable from the fresh database through deposits
and orders has a nonnegative cash balance: the funds check before a BUY,
the positivity check on deposits, and the fact that a SELL at a nonnegative
price only adds cash preserve `cash_balance ≥ 0`. -/
theorem C7_cash_nonneg (L : Ledger) (h : ReachableNN L) :
    0 ≤ L.cash_balance := by
  induction h with
  | init => norm_num [initialize_database, INITIAL_CASH]
  | deposit L a _ ih =>
    by_cases ha : a ≤ 0
    · simpa [add_virtual_cash, ha] using ih
    · have ha' : 0 < a := not_le.1 ha
      simp [add_virtual_cash, ha]
      linarith
  | order L s q t quote hquote _ ih =>
    rcases place_order_cases L s q t quote with
      ⟨_, hst⟩ | ⟨_, hq, p, L1, hp, hcase⟩
    · rw [hst]; exact ih
    · have hp0 : 0 ≤ p := hquote p hp
      rcases hcase with ⟨_, hc, hu, hst⟩ | ⟨_, hu, hst⟩
      · rw [hst]
        have hfr := (update_holding_ok_frame _ _ _ _ _ hu).1
        simp [hfr]
        linarith
      · rw [hst]
        have hfr := (update_holding_ok_frame _ _ _ _ _ hu).1
        have hpq : 0 ≤ p * q := mul_nonneg hp0 (le_of_lt hq)
        simp [hfr]
        linarith

theorem C7_cash_nonneg_witness :
    0 ≤ (place_order initialize_database "X" 1 "BUY"
      (some 100)).2.2.cash_balance :=
  C7_cash_nonneg _ (ReachableNN.order _ "X" 1 "BUY" (some 100)
    (fun p hp => by injection hp with h; rw [← h]; norm_num)
    ReachableNN.init)

/-- C8: every successful order appends exactly one transaction whose
symbol, type, quantity and price match the order; a failed order appends
nothing. -/
theorem C8_transaction_log (L : Ledger) (s : String) (q : ℚ) (t : String)
    (quote : Option ℚ) :
    ((place_order L s q t quote).1 = true →
      ∃ p, quote = some p ∧
        (place_order L s q t quote).2.2.transactions =
          L.transactions ++ [⟨s, t, q, p⟩]) ∧
    ((place_order L s q t quote).1 = false →
      (place_order L s q t quote).2.2.transactions = L.transactions) := by
  constructor
  · intro h
    rcases place_order_cases L s q t quote with
      ⟨hf, _⟩ | ⟨_, _, p, L1, hp, hcase⟩
    · rw [h] at hf; cases hf
    · refine ⟨p, hp, ?_⟩
      rcases hcase with ⟨hbuy, _, hu, hst⟩ | ⟨hsell, hu, hst⟩
      · rw [hst, hbuy]
        have hfr := (update_holding_ok_frame _ _ _ _ _ hu).2
        simp [hfr]
      · rw [hst, hsell]
        have hfr := (update_holding_ok_frame _ _ _ _ _ hu).2
        simp [hfr]
  · intro h
    rw [place_order_fail_state L s q t quote h]

theorem C8_transaction_log_witness :
    ∃ p, (some (10:ℚ)) = some p ∧
      (place_order initialize_database "X" 2 "BUY"
          (some 10)).2.2.transactions =
        initialize_database.transactions ++ [⟨"X", "BUY", 2, p⟩] :=
  (C8_transaction_log initialize_database "X" 2 "BUY" (some 10)).1
    (by norm_num [place_order, update_holding, read_holding, get_cash_balance,
      initialize_database, INITIAL_CASH, update_cash_balance, log_transaction])

/-- C9 as stated fails: the `InvalidQuantity` failure message is the
symbol-independent constant string "Quantity must be positive.", which does
not contain the order's symbol (here "AAPL"). -/
theorem C9_counterexample :
    (place_order initialize_database "AAPL" 0 "BUY" (some 10)).1 = false ∧
    ¬ ("AAPL".toList <:+:
      (place_order initialize_database "AAPL" 0 "BUY"
        (some 10)).2.1.toList) := by
  constructor
  · rfl
  · decide

/-- C9 (amended): the quote-unavailable failure, the sell-of-unowned-symbol
failure and the two success messages interpolate the order's symbol, but the
`InvalidQuantity`, `InsufficientFunds` and insufficient-quantity failure
messages are symbol-independent: they carry only the relevant
quantities/amounts. -/
theorem C9_message_contents (L : Ledger) (s : String) (q p : ℚ)
    (t : String) (quote : Option ℚ) :
    ((t = "BUY" ∨ t = "SELL") → q ≤ 0 →
      (place_order L s q t quote).2.1 = "Quantity must be positive.") ∧
    ((t = "BUY" ∨ t = "SELL") → 0 < q →
      (place_order L s q t none).2.1 =
        "Could not get live price for " ++ s ++
          ". Check symbol or API key.") ∧
    (0 < q → p * q > L.cash_balance →
      (place_order L s q "BUY" (some p)).2.1 =
        "Insufficient cash. Need $" ++ money (p * q) ++
          ", have $" ++ money L.cash_balance ++ ".") ∧
    (∀ q0 a, 0 < q → read_holding L s = some (q0, a) → q0 < q →
      (place_order L s q "SELL" (some p)).2.1 =
        "Insufficient quantity to sell. You only have " ++
          qty_str q0 ++ ".") ∧
    (0 < q → read_holding L s = none →
      (place_order L s q "SELL" (some p)).2.1 =
        "Cannot sell " ++ s ++ ". You do not own this stock.") ∧
    (∀ L1, 0 < q → ¬ p * q > L.cash_balance →
      update_holding L s q p = .ok L1 →
      (place_order L s q "BUY" (some p)).2.1 =
        "Successfully BOUGHT " ++ qty_str q ++ " of " ++ s ++
          " at $" ++ money p ++ ".") ∧
    (∀ L1, 0 < q → update_holding L s (-q) p = .ok L1 →
      (place_order L s q "SELL" (some p)).2.1 =
        "Successfully SOLD " ++ qty_str q ++ " of " ++ s ++
          " at $" ++ money p ++ ".") := by
  refine ⟨?_, ?_, ?_, ?_, ?_, ?_, ?_⟩
  · intro ht hq
    rw [place_order_invalid_qty L s q t quote ht hq]
  · intro ht hq
    rw [place_order_no_quote L s q t ht (not_le.2 hq)]
  · intro hq hc
    rw [place_order_buy_insufficient_cash L s q p hq hc]
  · intro q0 a hq h hlt
    rw [place_order_sell_err L s q p _ hq
      (update_holding_insufficient L s q0 a (-q) p h (by linarith))]
  · intro hq h
    rw [place_order_sell_err L s q p _ hq
      (update_holding_fresh_sell L s (-q) p h (by linarith))]
  · intro L1 hq hc hu
    rw [place_order_buy_ok L L1 s q p hq hc hu]
  · intro L1 hq hu
    rw [place_order_sell_ok L L1 s q p hq hu]

theorem C9_message_contents_witness :
    (place_order initialize_database "AAPL" 5 "BUY" none).2.1 =
      "Could not get live price for " ++ "AAPL" ++
        ". Check symbol or API key." :=
  (C9_message_contents initialize_database "AAPL" 5 0 "BUY" none).2.1
    (Or.inl rfl) (by norm_num)
